import Mathlib

/-!
Verification of the SCM simulator core (`lib/scm-simulator.ts`) and the
response parser of `lib/ai-test-generator.ts`.

The TypeScript `SCMSimulator` class keeps a `Map<string, Product>` of
products and an append-only list of `InventoryTransaction`s.  We embed the
map as an association list (JS `Map` preserves insertion order and has
unique keys), quantities as `Int` (the source uses JS numbers but every
quantity in play is integral), and the nondeterministic transaction id /
timestamp as oracle parameters threaded through each call.  The
`purchaseOrders` map of the class is never read or written by any of the
operations modelled here, so it is omitted from the state.
-/

/-- Kind of an inventory transaction, `'inbound' | 'outbound' | 'adjustment'`. -/
inductive TxType where
  | inbound
  | outbound
  | adjustment
deriving DecidableEq, Repr

/-- `Product` record of `lib/scm-simulator.ts`. -/
structure Product where
  id : String
  name : String
  sku : String
  stock : Int
  safetyStock : Int
  leadTimeDays : Int
  price : Int
deriving DecidableEq, Repr

/-- `InventoryTransaction` record of `lib/scm-simulator.ts`; the JS `Date`
timestamp is embedded as a `Nat`. -/
structure InventoryTransaction where
  id : String
  productId : String
  type : TxType
  quantity : Int
  timestamp : Nat
  reason : String
deriving DecidableEq, Repr

/-- Result record of `updateStock`. -/
structure StockResult where
  success : Bool
  message : String
  currentStock : Int
deriving DecidableEq, Repr

/-- The mutable state of an `SCMSimulator` instance: the product map
(association list in insertion order) and the transaction log. -/
structure SCMState where
  products : List (String × Product)
  transactions : List InventoryTransaction
deriving DecidableEq, Repr

/-- `Map.get` on the embedded product map. -/
def mapGet? (m : List (String × Product)) (k : String) : Option Product :=
  (m.find? (fun e => e.fst == k)).map (fun e => e.snd)

/-- Overwriting the value stored under an existing key (the in-place
`product.stock = newStock` mutation seen through the map). -/
def mapSet (m : List (String × Product)) (k : String) (v : Product) :
    List (String × Product) :=
  if (m.find? (fun e => e.fst == k)).isSome then
    m.map (fun e => if e.fst == k then (k, v) else e)
  else
    m ++ [(k, v)]

/-- The signed delta applied to the stock:
`type === 'outbound' ? -quantity : quantity`. -/
def txDelta (ty : TxType) (quantity : Int) : Int :=
  if ty = TxType.outbound then -quantity else quantity

/-- Fixed prefix of the success message of `updateStock`. -/
def successBase : String := "Stock updated successfully"

/-- The safety-stock alert appended to the success message when the new
stock is below the safety threshold. -/
def alertText (n : Int) : String :=
  " ⚠️ Below safety stock (" ++ toString n ++ ")"

/-- `SCMSimulator.updateStock`.  `txId` and `now` stand for the
`Date.now`/`Math.random` transaction identifier and the `new Date()`
timestamp, which are oracle inputs of the embedding. -/
def updateStock (s : SCMState) (productId : String) (quantity : Int)
    (ty : TxType) (reason : String) (txId : String) (now : Nat) :
    StockResult × SCMState :=
  match mapGet? s.products productId with
  | none =>
    (⟨false, "Product " ++ productId ++ " not found", 0⟩, s)
  | some product =>
    let newStock := product.stock + txDelta ty quantity
    if newStock < 0 then
      (⟨false, "Insufficient stock. Current: " ++ toString product.stock ++
          ", Requested: " ++ toString quantity, product.stock⟩, s)
    else
      let tx : InventoryTransaction :=
        ⟨txId, productId, ty, quantity, now, reason⟩
      let alert := if newStock < product.safetyStock
        then alertText product.safetyStock else ""
      (⟨true, successBase ++ alert, newStock⟩,
       ⟨mapSet s.products productId { product with stock := newStock },
        s.transactions ++ [tx]⟩)

/-- The sample catalog loaded by the constructor. -/
def p001 : Product :=
  ⟨"P001", "工業用ボルト M8×20mm", "BOLT-M8-20", 1000, 200, 7, 10⟩

/-- Second sample product. -/
def p002 : Product :=
  ⟨"P002", "ステンレス板材 1mm", "STEEL-SS-1MM", 500, 100, 14, 5000⟩

/-- Third sample product. -/
def p003 : Product :=
  ⟨"P003", "電子部品 IC-2023", "IC-2023-100", 50, 20, 30, 15000⟩

/-- The product map produced by the sample-data loader: each sample product
keyed by its id, in insertion order. -/
def initialProducts : List (String × Product) :=
  [("P001", p001), ("P002", p002), ("P003", p003)]

/-- The state of a freshly constructed simulator. -/
def initialState : SCMState := ⟨initialProducts, []⟩

/-- The item's outbound transactions, in log order (the filter inside
`forecastDemand`). -/
def outboundTxs (s : SCMState) (productId : String) :
    List InventoryTransaction :=
  s.transactions.filter
    (fun t => t.productId == productId && t.type == TxType.outbound)

/-- The at most 10 most recent outbound transactions of the item: the
`.slice(-10)` of `forecastDemand` (truncated subtraction makes `drop`
keep the whole list when it is short). -/
def recentOutbound (s : SCMState) (productId : String) :
    List InventoryTransaction :=
  (outboundTxs s productId).drop ((outboundTxs s productId).length - 10)

/-- `SCMSimulator.forecastDemand`.  The JS float constant `1.2` is embedded
as the exact rational `6/5`; all arithmetic of the embedding is exact
rational arithmetic. -/
def forecastDemand (s : SCMState) (productId : String) (days : Int) : Int :=
  match mapGet? s.products productId with
  | none => 0
  | some _ =>
    let recent := recentOutbound s productId
    if recent.length = 0 then 0
    else
      let avgDaily : ℚ :=
        ((recent.map (fun t => t.quantity)).sum : ℚ) / (recent.length : ℚ)
      Int.ceil (avgDaily * (days : ℚ) * (6 / 5 : ℚ))

/-- Result record of `getOrderRecommendation`. -/
structure OrderRecommendation where
  shouldOrder : Bool
  recommendedQuantity : Int
  reason : String
deriving DecidableEq, Repr

/-- `SCMSimulator.getOrderRecommendation`. -/
def getOrderRecommendation (s : SCMState) (productId : String) :
    OrderRecommendation :=
  match mapGet? s.products productId with
  | none => ⟨false, 0, "Product not found"⟩
  | some product =>
    let fd := forecastDemand s productId product.leadTimeDays
    let requiredStock := fd + product.safetyStock
    if product.stock < requiredStock then
      ⟨true, requiredStock - product.stock,
        "Current stock (" ++ toString product.stock ++
          ") is below required (" ++ toString requiredStock ++
          "). Forecast: " ++ toString fd ++
          ", Safety: " ++ toString product.safetyStock⟩
    else
      ⟨false, 0, "Stock sufficient. Current: " ++ toString product.stock ++
        ", Required: " ++ toString requiredStock⟩

/-- One step of the replay loop of `validateIntegrity`: inbound and
adjustment add the quantity, outbound subtracts it. -/
def txStep (acc : Int) (t : InventoryTransaction) : Int :=
  match t.type with
  | TxType.inbound => acc + t.quantity
  | TxType.adjustment => acc + t.quantity
  | TxType.outbound => acc - t.quantity

/-- The replay loop of `validateIntegrity`: fold the item's transactions
from a zero baseline. -/
def replayedStock (txs : List InventoryTransaction) (productId : String) : Int :=
  (txs.filter (fun t => t.productId == productId)).foldl txStep 0

/-- Result record of `validateIntegrity` (its nested `details` flattened). -/
structure IntegrityReport where
  isValid : Bool
  message : String
  currentStock : Int
  calculatedStock : Int
  difference : Int
deriving DecidableEq, Repr

/-- `SCMSimulator.validateIntegrity`.  The float tolerance test
`Math.abs(difference) < 0.01` is embedded as the exact rational comparison. -/
def validateIntegrity (s : SCMState) (productId : String) : IntegrityReport :=
  match mapGet? s.products productId with
  | none => ⟨false, "Product not found", 0, 0, 0⟩
  | some product =>
    let calculatedStock := replayedStock s.transactions productId
    let difference := product.stock - calculatedStock
    let isValid := decide (|(difference : ℚ)| < 1 / 100)
    ⟨isValid,
      if isValid then "Integrity check passed"
      else "Stock mismatch detected. Difference: " ++ toString difference,
      product.stock, calculatedStock, difference⟩

/-- One `updateStock` call description: its arguments together with the
oracle transaction id and timestamp. -/
structure StockRequest where
  productId : String
  quantity : Int
  type : TxType
  reason : String
  txId : String
  now : Nat
deriving DecidableEq, Repr

/-- Issue one request against the state. -/
def applyRequest (s : SCMState) (r : StockRequest) : StockResult × SCMState :=
  updateStock s r.productId r.quantity r.type r.reason r.txId r.now

/-- Issue a sequence of requests left to right, keeping only the state. -/
def applyRequests (s : SCMState) : List StockRequest → SCMState
  | [] => s
  | r :: rs => applyRequests (applyRequest s r).2 rs

/-- Issue a sequence of requests left to right, returning the final state
together with the number of successful and of rejected calls. -/
def runRequests (s : SCMState) : List StockRequest → SCMState × Nat × Nat
  | [] => (s, 0, 0)
  | r :: rs =>
    let res := applyRequest s r
    let rest := runRequests res.2 rs
    if res.1.success then (rest.1, rest.2.1 + 1, rest.2.2)
    else (rest.1, rest.2.1, rest.2.2 + 1)

/-- The sum of the magnitudes of the item's logged transactions of one
kind (the "sum of inbound magnitudes" and friends of the conservation
property). -/
def kindTotal (k : TxType) (txs : List InventoryTransaction)
    (pid : String) : Int :=
  ((txs.filter (fun t => t.productId == pid && t.type == k)).map
    (fun t => t.quantity)).sum

/-- Every catalog entry has non-negative stock. -/
def allStockNonneg (s : SCMState) : Prop :=
  ∀ e ∈ s.products, 0 ≤ e.snd.stock

/-- The live stock of every catalog item equals its stock in the initial
catalog plus the replayed total of the logged transactions for that item,
and the set of catalog keys never changes. -/
def tracksInitial (s : SCMState) : Prop :=
  ∀ pid : String,
    (∀ p, mapGet? s.products pid = some p →
      ∃ p0, mapGet? initialProducts pid = some p0 ∧
        p.stock = p0.stock + replayedStock s.transactions pid) ∧
    (mapGet? s.products pid = none → mapGet? initialProducts pid = none)

/-- Every request of the batch is an outbound movement of magnitude `m`
against item `pid`. -/
def outboundBatch (pid : String) (m : Int) (reqs : List StockRequest) : Prop :=
  ∀ r ∈ reqs, r.productId = pid ∧ r.quantity = m ∧ r.type = TxType.outbound

/-! ### Concrete data used to exercise the operations -/

/-- A single well-formed outbound request against the sample catalog. -/
def c1Reqs : List StockRequest :=
  [⟨"P001", 300, TxType.outbound, "order", "t1", 1⟩,
   ⟨"P002", 120, TxType.inbound, "delivery", "t2", 2⟩]

/-- The catalog state after the threshold-signalling scenario's first
movement: an outbound of 850 against P001 (stock 1000, safety 200). -/
def c3State : SCMState :=
  (updateStock initialState "P001" 850 TxType.outbound "order" "t1" 1).2

/-- One accepted outbound movement, for exercising the integrity replay. -/
def c4Reqs : List StockRequest :=
  [⟨"P001", 100, TxType.outbound, "order", "t1", 1⟩]

/-- An item with initial quantity 100 for the chaos-test scenario. -/
def c8Product : Product := ⟨"A", "item", "SKU-A", 100, 0, 0, 0⟩

/-- A catalog holding only `c8Product`. -/
def c8State : SCMState := ⟨[("A", c8Product)], []⟩

/-- Fifty outbound requests of magnitude 5 against item `A`. -/
def c8Reqs : List StockRequest :=
  List.replicate 50 ⟨"A", 5, TxType.outbound, "chaos", "t", 0⟩

/-- A transaction log holding ten outbound movements of magnitude 10
against P001. -/
def forecastState : SCMState :=
  ⟨initialProducts,
    (List.range 10).map (fun i => ⟨"T", "P001", TxType.outbound, 10, i, "demo"⟩)⟩

/-- The catalog state after an adjustment of -40 against P003 (stock 50,
safety 20): quantity 10 is below the reorder requirement. -/
def c7State : SCMState :=
  (updateStock initialState "P003" (-40) TxType.adjustment "shrink" "t1" 1).2

/-! ### The response parser of `lib/ai-test-generator.ts`

The TypeScript `parseResponse` extracts sections of the collaborator's
free-form reply with four regular expressions.  Each regex is embedded as a
direct scan over the character list: leftmost-match search, lazy capture
up to the first position where the terminator or lookahead matches, and
resumption at the next start position after a failed partial match. -/

/-- Result record of `AITestGenerator.parseResponse`. -/
structure GeneratedTest where
  code : String
  description : String
  edgeCases : List String
  estimatedCoverage : Int
deriving DecidableEq, Repr

/-- Opening marker of a typescript code block. -/
def tsOpen : String := "```typescript"

/-- A bare code fence, the closing marker. -/
def fence : String := "```"

/-- Edge-case section header, with its trailing newline. -/
def edgeHeader : String := "## エッジケース一覧\n"

/-- Coverage section header, with its trailing newline. -/
def coverHeader : String := "## カバレッジ推定\n"

/-- Is `pat` a prefix of `s`? -/
def startsWithList : List Char → List Char → Bool
  | [], _ => true
  | _ :: _, [] => false
  | p :: ps, c :: cs => p == c && startsWithList ps cs

/-- Index of the first occurrence of `pat` in `s`, if any. -/
def findSub (pat : List Char) : List Char → Option Nat
  | [] => if startsWithList pat [] then some 0 else none
  | c :: rest =>
    if startsWithList pat (c :: rest) then some 0
    else (findSub pat rest).map (fun i => i + 1)

/-- JS `String.prototype.trim` on character lists. -/
def trimList (l : List Char) : List Char :=
  ((l.dropWhile Char.isWhitespace).reverse.dropWhile Char.isWhitespace).reverse

/-- Does the text start with the section lookahead, a newline followed by
a header marker or a fence? -/
def nlSection (l : List Char) : Bool :=
  startsWithList ("\n##").data l || startsWithList ("\n```").data l

/-- Position of the first section lookahead, if any. -/
def findSection : List Char → Option Nat
  | [] => none
  | c :: rest =>
    if nlSection (c :: rest) then some 0
    else (findSection rest).map (fun i => i + 1)

/-- Lazy capture ending at the section lookahead, or the whole rest when
the alternation also accepts the end of input. -/
def takeToSection (l : List Char) : List Char :=
  match findSection l with
  | some i => l.take i
  | none => l

/-- Captured body of the first typescript code block: text between the
opening marker and the next fence, trimmed; empty when either marker is
missing. -/
def codeField (resp : List Char) : List Char :=
  match findSub tsOpen.data resp with
  | none => []
  | some i =>
    let after := resp.drop (i + tsOpen.data.length)
    match findSub fence.data after with
    | none => []
    | some j => trimList (after.take j)

/-- Description capture: from the start of the response to the first
section lookahead; when no lookahead exists the regex fails and the
default text is used. -/
def descField (resp : List Char) : String :=
  match findSection resp with
  | some i => String.mk (trimList (resp.take i))
  | none => "Generated test"

/-- Splitting on newlines, as JS `split` with a newline separator. -/
def splitNl : List Char → List (List Char)
  | [] => [[]]
  | c :: rest =>
    if c = '\n' then [] :: splitNl rest
    else
      match splitNl rest with
      | [] => [[c]]
      | l :: ls => (c :: l) :: ls

/-- One edge-case line: remove a leading dash and the whitespace after it,
then trim (a line whose dash is preceded by spaces is only trimmed, as in
the source, whose anchored replace does not fire then). -/
def stripDash (l : List Char) : List Char :=
  match l with
  | '-' :: rest => trimList (rest.dropWhile Char.isWhitespace)
  | _ => trimList l

/-- Does the trimmed line start with a dash (the JS filter)? -/
def isDashLine (l : List Char) : Bool :=
  match trimList l with
  | '-' :: _ => true
  | _ => false

/-- Captured text of the edge-case section: after the header, up to the
lookahead; empty when the header is missing. -/
def edgeSectionText (resp : List Char) : List Char :=
  match findSub edgeHeader.data resp with
  | none => []
  | some i => takeToSection (resp.drop (i + edgeHeader.data.length))

/-- The parsed edge-case list. -/
def edgeCasesField (resp : List Char) : List String :=
  ((splitNl (edgeSectionText resp)).filter isDashLine).map
    (fun l => String.mk (stripDash l))

/-- Numeric value of a digit run, as JS `parseInt` on the captured
digits. -/
def digitsVal (l : List Char) : Nat :=
  l.foldl (fun acc c => acc * 10 + (c.toNat - '0'.toNat)) 0

/-- The digits-and-percent match immediately after a coverage header. -/
def coverageAt (tail : List Char) : Option Nat :=
  let ds := tail.takeWhile Char.isDigit
  if ds.isEmpty then none
  else if startsWithList ("%").data (tail.drop ds.length) then
    some (digitsVal ds)
  else none

/-- First successful coverage match in the response, scanning start
positions left to right and resuming after a header not followed by
digits and a percent sign. -/
def findCoverage : List Char → Option Nat
  | [] => none
  | c :: rest =>
    if startsWithList coverHeader.data (c :: rest) then
      match coverageAt ((c :: rest).drop coverHeader.data.length) with
      | some v => some v
      | none => findCoverage rest
    else findCoverage rest

/-- `AITestGenerator.parseResponse`: every section is extracted
best-effort, with an empty or default value when its markers are
missing. -/
def parseResponse (response : String) : GeneratedTest :=
  let resp := response.data
  { code := String.mk (codeField resp)
    description := descField resp
    edgeCases := edgeCasesField resp
    estimatedCoverage :=
      match findCoverage resp with
      | some v => (v : Int)
      | none => 80 }

/-! ### Association-list lemmas for the product map -/

theorem mapGet?_isSome_find (m : List (String × Product)) (k : String)
    (p : Product) (h : mapGet? m k = some p) :
    (m.find? (fun e => e.fst == k)).isSome := by
  cases hf : m.find? (fun e => e.fst == k) with
  | none => rw [mapGet?, hf] at h; simp at h
  | some e => simp

theorem mapSet_of_found (m : List (String × Product)) (k : String) (v : Product)
    (h : (m.find? (fun e => e.fst == k)).isSome) :
    mapSet m k v = m.map (fun e => if e.fst == k then (k, v) else e) := by
  simp [mapSet, h]

theorem find?_replace_self (m : List (String × Product)) (k : String) (v : Product)
    (h : (m.find? (fun e => e.fst == k)).isSome) :
    (m.map (fun e => if e.fst == k then (k, v) else e)).find? (fun e => e.fst == k)
      = some (k, v) := by
  induction m with
  | nil => simp at h
  | cons e m ih =>
    cases he : (e.fst == k) with
    | true =>
      rw [List.map_cons, if_pos he]
      exact List.find?_cons_of_pos _ (by simp)
    | false =>
      have hpe : ¬ ((e.fst == k) = true) := by simp [he]
      have h' : (m.find? (fun e => e.fst == k)).isSome := by
        rw [@List.find?_cons_of_neg _ (fun x => x.fst == k) e m hpe] at h
        exact h
      rw [List.map_cons, if_neg (by simp [he]),
        @List.find?_cons_of_neg _ (fun x => x.fst == k) e _ hpe]
      exact ih h'

theorem find?_replace_ne (m : List (String × Product)) (k k' : String) (v : Product)
    (hne : k' ≠ k) :
    (m.map (fun e => if e.fst == k then (k, v) else e)).find? (fun e => e.fst == k')
      = m.find? (fun e => e.fst == k') := by
  induction m with
  | nil => rfl
  | cons e m ih =>
    have hkk : (k == k') = false :=
      beq_eq_false_iff_ne.mpr fun hkk => hne hkk.symm
    cases he : (e.fst == k) with
    | true =>
      have h2 : ¬ ((e.fst == k') = true) := by
        rw [beq_iff_eq.mp he]; simp [hkk]
      rw [List.map_cons, if_pos he,
        @List.find?_cons_of_neg _ (fun x => x.fst == k') (k, v) _ (by simp [hkk]),
        @List.find?_cons_of_neg _ (fun x => x.fst == k') e _ h2]
      exact ih
    | false =>
      cases hk' : (e.fst == k') with
      | true =>
        rw [List.map_cons, if_neg (by simp [he]),
          @List.find?_cons_of_pos _ (fun x => x.fst == k') e _ (by simp [hk']),
          @List.find?_cons_of_pos _ (fun x => x.fst == k') e _ (by simp [hk'])]
      | false =>
        rw [List.map_cons, if_neg (by simp [he]),
          @List.find?_cons_of_neg _ (fun x => x.fst == k') e _ (by simp [hk']),
          @List.find?_cons_of_neg _ (fun x => x.fst == k') e _ (by simp [hk'])]
        exact ih

theorem mapGet?_set_self (m : List (String × Product)) (k : String)
    (v p : Product) (h : mapGet? m k = some p) :
    mapGet? (mapSet m k v) k = some v := by
  have hf := mapGet?_isSome_find m k p h
  rw [mapSet_of_found m k v hf, mapGet?, find?_replace_self m k v hf]
  rfl

theorem mapGet?_set_ne (m : List (String × Product)) (k k' : String) (v : Product)
    (hf : (m.find? (fun e => e.fst == k)).isSome) (hne : k' ≠ k) :
    mapGet? (mapSet m k v) k' = mapGet? m k' := by
  rw [mapSet_of_found m k v hf, mapGet?, mapGet?, find?_replace_ne m k k' v hne]

theorem mem_mapSet (m : List (String × Product)) (k : String) (v : Product)
    (e' : String × Product) (hf : (m.find? (fun e => e.fst == k)).isSome)
    (h : e' ∈ mapSet m k v) : e' = (k, v) ∨ e' ∈ m := by
  rw [mapSet_of_found m k v hf] at h
  rcases List.mem_map.mp h with ⟨e, hm, he⟩
  by_cases hek : (e.fst == k) = true
  · left; rw [← he]; simp [hek]
  · right; rw [← he]; simp only [hek, if_false]; exact hm

/-! ### Case analysis of `updateStock` -/

theorem updateStock_none (s : SCMState) (pid : String) (q : Int) (ty : TxType)
    (rsn tid : String) (now : Nat) (h : mapGet? s.products pid = none) :
    updateStock s pid q ty rsn tid now =
      (⟨false, "Product " ++ pid ++ " not found", 0⟩, s) := by
  simp [updateStock, h]

theorem updateStock_insufficient (s : SCMState) (pid : String) (q : Int)
    (ty : TxType) (rsn tid : String) (now : Nat) (p : Product)
    (h : mapGet? s.products pid = some p) (hlt : p.stock + txDelta ty q < 0) :
    updateStock s pid q ty rsn tid now =
      (⟨false, "Insufficient stock. Current: " ++ toString p.stock ++
          ", Requested: " ++ toString q, p.stock⟩, s) := by
  simp [updateStock, h, hlt]

theorem updateStock_success (s : SCMState) (pid : String) (q : Int)
    (ty : TxType) (rsn tid : String) (now : Nat) (p : Product)
    (h : mapGet? s.products pid = some p) (hge : 0 ≤ p.stock + txDelta ty q) :
    updateStock s pid q ty rsn tid now =
      (⟨true, successBase ++ (if p.stock + txDelta ty q < p.safetyStock
            then alertText p.safetyStock else ""),
        p.stock + txDelta ty q⟩,
       ⟨mapSet s.products pid { p with stock := p.stock + txDelta ty q },
        s.transactions ++ [⟨tid, pid, ty, q, now, rsn⟩]⟩) := by
  have hnlt : ¬ (p.stock + txDelta ty q < 0) := not_lt.mpr hge
  simp [updateStock, h, hnlt]

theorem updateStock_cases (s : SCMState) (pid : String) (q : Int) (ty : TxType)
    (rsn tid : String) (now : Nat) :
    (mapGet? s.products pid = none ∧
      updateStock s pid q ty rsn tid now =
        (⟨false, "Product " ++ pid ++ " not found", 0⟩, s)) ∨
    (∃ p, mapGet? s.products pid = some p ∧ p.stock + txDelta ty q < 0 ∧
      updateStock s pid q ty rsn tid now =
        (⟨false, "Insufficient stock. Current: " ++ toString p.stock ++
            ", Requested: " ++ toString q, p.stock⟩, s)) ∨
    (∃ p, mapGet? s.products pid = some p ∧ 0 ≤ p.stock + txDelta ty q ∧
      updateStock s pid q ty rsn tid now =
        (⟨true, successBase ++ (if p.stock + txDelta ty q < p.safetyStock
              then alertText p.safetyStock else ""),
          p.stock + txDelta ty q⟩,
         ⟨mapSet s.products pid { p with stock := p.stock + txDelta ty q },
          s.transactions ++ [⟨tid, pid, ty, q, now, rsn⟩]⟩)) := by
  cases hp : mapGet? s.products pid with
  | none => exact Or.inl ⟨rfl, updateStock_none s pid q ty rsn tid now hp⟩
  | some p =>
    by_cases hlt : p.stock + txDelta ty q < 0
    · exact Or.inr (Or.inl ⟨p, rfl, hlt,
        updateStock_insufficient s pid q ty rsn tid now p hp hlt⟩)
    · exact Or.inr (Or.inr ⟨p, rfl, not_lt.mp hlt,
        updateStock_success s pid q ty rsn tid now p hp (not_lt.mp hlt)⟩)

/-! ### Replay arithmetic -/

theorem txStep_eq (acc : Int) (t : InventoryTransaction) :
    txStep acc t = acc + txDelta t.type t.quantity := by
  cases h : t.type <;> simp [txStep, txDelta, h] <;> omega

theorem foldl_txStep_shift (l : List InventoryTransaction) (init : Int) :
    l.foldl txStep init = init + l.foldl txStep 0 := by
  induction l generalizing init with
  | nil => simp
  | cons t l ih =>
    simp only [List.foldl_cons]
    rw [ih (txStep init t), ih (txStep 0 t), txStep_eq, txStep_eq]
    omega

theorem replayedStock_nil (pid : String) : replayedStock [] pid = 0 := rfl

theorem replayedStock_cons (t : InventoryTransaction)
    (txs : List InventoryTransaction) (pid : String) :
    replayedStock (t :: txs) pid =
      (if t.productId == pid then txDelta t.type t.quantity else 0) +
        replayedStock txs pid := by
  simp only [replayedStock, List.filter_cons]
  split
  · rw [List.foldl_cons, foldl_txStep_shift, txStep_eq]
    omega
  · omega

theorem replayedStock_append (l₁ l₂ : List InventoryTransaction) (pid : String) :
    replayedStock (l₁ ++ l₂) pid = replayedStock l₁ pid + replayedStock l₂ pid := by
  induction l₁ with
  | nil => rw [List.nil_append, replayedStock_nil]; omega
  | cons t l ih =>
    rw [List.cons_append, replayedStock_cons, replayedStock_cons, ih]
    omega

theorem replayedStock_single (tx : InventoryTransaction) (pid : String) :
    replayedStock [tx] pid =
      if tx.productId == pid then txDelta tx.type tx.quantity else 0 := by
  rw [replayedStock_cons, replayedStock_nil]
  omega

/-! ### State invariants -/

theorem tracksInitial_init : tracksInitial initialState := by
  intro pid
  constructor
  · intro p hp
    refine ⟨p, hp, ?_⟩
    show p.stock = p.stock + replayedStock [] pid
    rw [replayedStock_nil]
    omega
  · intro h
    exact h

theorem allStockNonneg_step (s : SCMState) (r : StockRequest)
    (hs : allStockNonneg s) : allStockNonneg (applyRequest s r).2 := by
  rcases updateStock_cases s r.productId r.quantity r.type r.reason r.txId r.now
    with ⟨h, heq⟩ | ⟨p, hp, hlt, heq⟩ | ⟨p, hp, hge, heq⟩
  · unfold applyRequest
    rw [heq]
    exact hs
  · unfold applyRequest
    rw [heq]
    exact hs
  · unfold applyRequest
    rw [heq]
    intro e he
    rcases mem_mapSet s.products r.productId _ e (mapGet?_isSome_find _ _ _ hp) he
      with he1 | he2
    · rw [he1]
      exact hge
    · exact hs e he2

theorem allStockNonneg_run (reqs : List StockRequest) :
    ∀ s : SCMState, allStockNonneg s → allStockNonneg (applyRequests s reqs) := by
  induction reqs with
  | nil => intro s hs; exact hs
  | cons r rs ih =>
    intro s hs
    exact ih (applyRequest s r).2 (allStockNonneg_step s r hs)

theorem tracksInitial_step (s : SCMState) (r : StockRequest)
    (hs : tracksInitial s) : tracksInitial (applyRequest s r).2 := by
  rcases updateStock_cases s r.productId r.quantity r.type r.reason r.txId r.now
    with ⟨h, heq⟩ | ⟨p, hp, hlt, heq⟩ | ⟨p, hp, hge, heq⟩
  · unfold applyRequest
    rw [heq]
    exact hs
  · unfold applyRequest
    rw [heq]
    exact hs
  · unfold applyRequest
    rw [heq]
    intro pid
    by_cases hpid : pid = r.productId
    · subst hpid
      constructor
      · intro p' hp'
        rw [mapGet?_set_self s.products r.productId _ p hp] at hp'
        obtain ⟨p0, h0, hstock⟩ := (hs r.productId).1 p hp
        refine ⟨p0, h0, ?_⟩
        rw [← Option.some_inj.mp hp']
        show p.stock + txDelta r.type r.quantity = _
        rw [replayedStock_append, replayedStock_single]
        have hbeq : (r.productId == r.productId) = true :=
          beq_self_eq_true r.productId
        show p.stock + txDelta r.type r.quantity =
          p0.stock + (replayedStock s.transactions r.productId +
            if (r.productId == r.productId) = true
              then txDelta r.type r.quantity else 0)
        rw [if_pos hbeq]
        omega
      · intro hnone
        rw [mapGet?_set_self s.products r.productId _ p hp] at hnone
        exact absurd hnone (by simp)
    · have hget := mapGet?_set_ne s.products r.productId pid
        { p with stock := p.stock + txDelta r.type r.quantity }
        (mapGet?_isSome_find _ _ _ hp) hpid
      have hrep : replayedStock (s.transactions ++
          [⟨r.txId, r.productId, r.type, r.quantity, r.now, r.reason⟩]) pid =
          replayedStock s.transactions pid := by
        rw [replayedStock_append, replayedStock_single]
        have hbeq : (r.productId == pid) = false :=
          beq_eq_false_iff_ne.mpr fun hx => hpid hx.symm
        show replayedStock s.transactions pid +
            (if (r.productId == pid) = true
              then txDelta r.type r.quantity else 0) = _
        rw [if_neg (by simp [hbeq])]
        omega
      constructor
      · intro p' hp'
        rw [hget] at hp'
        obtain ⟨p0, h0, hstock⟩ := (hs pid).1 p' hp'
        refine ⟨p0, h0, ?_⟩
        rw [hrep]
        exact hstock
      · intro hnone
        rw [hget] at hnone
        exact (hs pid).2 hnone

theorem tracksInitial_run (reqs : List StockRequest) :
    ∀ s : SCMState, tracksInitial s → tracksInitial (applyRequests s reqs) := by
  induction reqs with
  | nil => intro s hs; exact hs
  | cons r rs ih =>
    intro s hs
    exact ih (applyRequest s r).2 (tracksInitial_step s r hs)

/-! ### The safety-stock alert and the success message -/

theorem alertText_length_pos (n : Int) : 0 < (alertText n).length := by
  rw [alertText, String.length_append, String.length_append]
  have h1 : 0 < (" ⚠️ Below safety stock (").length := by decide
  omega

theorem successBase_alert_ne (n : Int) :
    successBase ++ alertText n ≠ successBase := by
  intro h
  have hl := congrArg String.length h
  rw [String.length_append] at hl
  have := alertText_length_pos n
  omega

/-! ### Kind totals and the replay decomposition -/

theorem kindTotal_nil (k : TxType) (pid : String) : kindTotal k [] pid = 0 := rfl

theorem kindTotal_cons (k : TxType) (t : InventoryTransaction)
    (txs : List InventoryTransaction) (pid : String) :
    kindTotal k (t :: txs) pid =
      (if t.productId == pid && t.type == k then t.quantity else 0) +
        kindTotal k txs pid := by
  simp only [kindTotal, List.filter_cons]
  split
  · rw [List.map_cons, List.sum_cons]
  · omega

theorem replayedStock_decomp (txs : List InventoryTransaction) (pid : String) :
    replayedStock txs pid =
      kindTotal TxType.inbound txs pid + kindTotal TxType.adjustment txs pid
        - kindTotal TxType.outbound txs pid := by
  induction txs with
  | nil =>
    rw [replayedStock_nil, kindTotal_nil, kindTotal_nil, kindTotal_nil]
    omega
  | cons t rest ih =>
    rw [replayedStock_cons, ih, kindTotal_cons, kindTotal_cons, kindTotal_cons]
    cases hty : t.type <;> cases hpid : (t.productId == pid) <;>
      simp [hty, hpid, txDelta] <;> omega

theorem kindTotal_adjustment_zero (txs : List InventoryTransaction) (pid : String)
    (h : ∀ t ∈ txs, t.productId = pid → t.type ≠ TxType.adjustment) :
    kindTotal TxType.adjustment txs pid = 0 := by
  induction txs with
  | nil => rfl
  | cons t rest ih =>
    rw [kindTotal_cons, ih (fun x hx => h x (List.mem_cons_of_mem t hx))]
    cases hb : (t.productId == pid && t.type == TxType.adjustment) with
    | false => simp
    | true =>
      exfalso
      obtain ⟨hb1, hb2⟩ := Bool.and_eq_true_iff.mp hb
      exact h t (List.mem_cons_self t rest) (beq_iff_eq.mp hb1)
        (beq_iff_eq.mp hb2)

/-! ### Projections of `validateIntegrity` -/

theorem validateIntegrity_difference (s : SCMState) (pid : String) (p : Product)
    (hp : mapGet? s.products pid = some p) :
    (validateIntegrity s pid).difference =
      p.stock - replayedStock s.transactions pid := by
  simp [validateIntegrity, hp]

theorem validateIntegrity_isValid (s : SCMState) (pid : String) (p : Product)
    (hp : mapGet? s.products pid = some p) :
    (validateIntegrity s pid).isValid =
      decide (|((p.stock - replayedStock s.transactions pid : Int) : ℚ)|
        < 1 / 100) := by
  simp [validateIntegrity, hp]

theorem int_abs_lt_hundredth (z : Int) : |((z : Int) : ℚ)| < 1 / 100 ↔ z = 0 := by
  constructor
  · intro h
    by_contra hz
    have h1 : (1 : Int) ≤ |z| := Int.one_le_abs hz
    have h2 : (1 : ℚ) ≤ |(z : ℚ)| := by
      calc (1 : ℚ) = ((1 : Int) : ℚ) := by norm_num
        _ ≤ ((|z| : Int) : ℚ) := by exact_mod_cast h1
        _ = |(z : ℚ)| := by push_cast; ring
    linarith
  · intro h
    rw [h]
    norm_num

/-! ### Batches of identical outbound requests (the chaos-test pattern) -/

theorem runRequests_outbound (pid : String) (m : Int)
    (reqs : List StockRequest) :
    ∀ (s : SCMState) (p : Product),
      mapGet? s.products pid = some p → 0 ≤ p.stock →
      outboundBatch pid m reqs →
      ∃ p', mapGet? (runRequests s reqs).1.products pid = some p' ∧
        p'.stock = p.stock - ((runRequests s reqs).2.1 : Int) * m ∧
        0 ≤ p'.stock ∧
        (runRequests s reqs).2.1 + (runRequests s reqs).2.2 = reqs.length := by
  induction reqs with
  | nil =>
    intro s p hp hnn _
    exact ⟨p, hp, by simp [runRequests], hnn, rfl⟩
  | cons r rs ih =>
    intro s p hp hnn hbatch
    obtain ⟨hrpid, hrq, hrty⟩ := hbatch r (List.mem_cons_self r rs)
    have hbatch' : outboundBatch pid m rs :=
      fun x hx => hbatch x (List.mem_cons_of_mem r hx)
    have hp' : mapGet? s.products r.productId = some p := by
      rw [hrpid]; exact hp
    have hdelta : txDelta r.type r.quantity = -m := by
      rw [hrty, hrq, txDelta]
      simp
    by_cases hlt : p.stock + txDelta r.type r.quantity < 0
    · have heq := updateStock_insufficient s r.productId r.quantity r.type
        r.reason r.txId r.now p hp' hlt
      have happ : (applyRequest s r).2 = s := by
        unfold applyRequest
        rw [heq]
      have hsucc : (applyRequest s r).1.success = false := by
        unfold applyRequest
        rw [heq]
      have hrun : runRequests s (r :: rs) =
          ((runRequests s rs).1, (runRequests s rs).2.1,
            (runRequests s rs).2.2 + 1) := by
        simp [runRequests, hsucc, happ]
      obtain ⟨p', hp'', hstock', hnn', hcount⟩ := ih s p hp hnn hbatch'
      rw [hrun]
      exact ⟨p', hp'', hstock', hnn', by simp only [List.length_cons]; omega⟩
    · have hge : 0 ≤ p.stock + txDelta r.type r.quantity := not_lt.mp hlt
      have heq := updateStock_success s r.productId r.quantity r.type
        r.reason r.txId r.now p hp' hge
      have happ : (applyRequest s r).2 =
          ⟨mapSet s.products r.productId
              { p with stock := p.stock + txDelta r.type r.quantity },
            s.transactions ++
              [⟨r.txId, r.productId, r.type, r.quantity, r.now, r.reason⟩]⟩ := by
        unfold applyRequest
        rw [heq]
      have hsucc : (applyRequest s r).1.success = true := by
        unfold applyRequest
        rw [heq]
      have hget1 : mapGet? (applyRequest s r).2.products pid =
          some { p with stock := p.stock + txDelta r.type r.quantity } := by
        rw [happ]
        show mapGet? (mapSet s.products r.productId _) pid = _
        rw [hrpid]
        exact mapGet?_set_self s.products pid _ p hp
      obtain ⟨p', hp'', hstock', hnn', hcount⟩ :=
        ih (applyRequest s r).2
          { p with stock := p.stock + txDelta r.type r.quantity } hget1 hge hbatch'
      have hrun : runRequests s (r :: rs) =
          ((runRequests (applyRequest s r).2 rs).1,
            (runRequests (applyRequest s r).2 rs).2.1 + 1,
            (runRequests (applyRequest s r).2 rs).2.2) := by
        simp [runRequests, hsucc]
      rw [hrun]
      refine ⟨p', hp'', ?_, hnn', by simp only [List.length_cons]; omega⟩
      have hmul : (((runRequests (applyRequest s r).2 rs).2.1 + 1 : ℕ) : Int) * m
          = ((runRequests (applyRequest s r).2 rs).2.1 : Int) * m + m := by
        push_cast
        ring
      rw [hmul]
      have hps : ({ p with stock := p.stock + txDelta r.type r.quantity} :
          Product).stock = p.stock - m := by
        rw [hdelta]
        show p.stock + -m = p.stock - m
        omega
      rw [hps] at hstock'
      omega

/-! ## The claims -/

/-- C1: for every sequence of `updateStock` calls with non-negative
magnitudes, starting from the initial catalog, every item's quantity is
non-negative after the sequence (and hence after every call, since the
statement covers every prefix sequence as well); no accepted or rejected
call leaves any quantity negative. -/
theorem spec_c1_quantity_nonneg (reqs : List StockRequest)
    (hq : ∀ r ∈ reqs, 0 ≤ r.quantity) :
    allStockNonneg (applyRequests initialState reqs) := by
  have _hq := hq
  refine allStockNonneg_run reqs initialState ?_
  have h0 : ∀ e ∈ initialState.products, 0 ≤ e.snd.stock := by decide
  exact h0

/-- Witness for C1 at a concrete two-request sequence. -/
theorem spec_c1_witness :
    (∀ r ∈ c1Reqs, 0 ≤ r.quantity) ∧
    allStockNonneg (applyRequests initialState c1Reqs) :=
  ⟨by decide, spec_c1_quantity_nonneg c1Reqs (by decide)⟩

/-- C2: every rejected `updateStock` call is atomic.  A missing item key
fails with the not-found message, current stock 0 and unchanged state; an
insufficient-stock request fails returning the unchanged current quantity
and unchanged state; and in general any failed call leaves the state (both
the catalog and the transaction log) exactly as it was. -/
theorem spec_c2_rejection_atomic (s : SCMState) (pid : String) (q : Int)
    (ty : TxType) (rsn tid : String) (now : Nat) :
    (mapGet? s.products pid = none →
      (updateStock s pid q ty rsn tid now).1.success = false ∧
      (updateStock s pid q ty rsn tid now).1.message =
        "Product " ++ pid ++ " not found" ∧
      (updateStock s pid q ty rsn tid now).1.currentStock = 0 ∧
      (updateStock s pid q ty rsn tid now).2 = s) ∧
    (∀ p, mapGet? s.products pid = some p → p.stock + txDelta ty q < 0 →
      (updateStock s pid q ty rsn tid now).1.success = false ∧
      (updateStock s pid q ty rsn tid now).1.currentStock = p.stock ∧
      (updateStock s pid q ty rsn tid now).2 = s) ∧
    ((updateStock s pid q ty rsn tid now).1.success = false →
      (updateStock s pid q ty rsn tid now).2 = s) := by
  refine ⟨?_, ?_, ?_⟩
  · intro h
    rw [updateStock_none s pid q ty rsn tid now h]
    exact ⟨rfl, rfl, rfl, rfl⟩
  · intro p hp hlt
    rw [updateStock_insufficient s pid q ty rsn tid now p hp hlt]
    exact ⟨rfl, rfl, rfl⟩
  · intro hfail
    rcases updateStock_cases s pid q ty rsn tid now with
      ⟨h, heq⟩ | ⟨p, hp, hlt, heq⟩ | ⟨p, hp, hge, heq⟩
    · rw [heq]
    · rw [heq]
    · rw [heq] at hfail
      simp at hfail

/-- Witness for C2: a missing key and an insufficient-stock rejection on
the sample catalog, both leaving the state unchanged. -/
theorem spec_c2_witness :
    (mapGet? initialState.products "P999" = none ∧
      (updateStock initialState "P999" 5 TxType.outbound "w" "t" 0).2
        = initialState) ∧
    (mapGet? initialState.products "P003" = some p003 ∧
      p003.stock + txDelta TxType.outbound 51 < 0 ∧
      (updateStock initialState "P003" 51 TxType.outbound "w" "t" 0).1.currentStock
        = 50 ∧
      (updateStock initialState "P003" 51 TxType.outbound "w" "t" 0).2
        = initialState) := by
  refine ⟨⟨by decide, ?_⟩, by decide, by decide, ?_, ?_⟩
  · exact ((spec_c2_rejection_atomic initialState "P999" 5 TxType.outbound
      "w" "t" 0).1 (by decide)).2.2.2
  · have h := ((spec_c2_rejection_atomic initialState "P003" 51 TxType.outbound
      "w" "t" 0).2.1 p003 (by decide) (by decide)).2.1
    rw [h]
    decide
  · exact ((spec_c2_rejection_atomic initialState "P003" 51 TxType.outbound
      "w" "t" 0).2.1 p003 (by decide) (by decide)).2.2

/-- C3: an `updateStock` call on an existing item with non-negative
magnitude whose delta keeps the quantity non-negative succeeds, returns
the new quantity, appends exactly one transaction carrying the item key,
kind, magnitude and reason, stores the new quantity, and carries the
safety-stock alert in its message exactly when the new quantity is below
the item's safety threshold. -/
theorem spec_c3_success (s : SCMState) (pid : String) (q : Int) (ty : TxType)
    (rsn tid : String) (now : Nat) (p : Product)
    (hp : mapGet? s.products pid = some p) (hq : 0 ≤ q)
    (hge : 0 ≤ p.stock + txDelta ty q) :
    (updateStock s pid q ty rsn tid now).1.success = true ∧
    (updateStock s pid q ty rsn tid now).1.currentStock
      = p.stock + txDelta ty q ∧
    (updateStock s pid q ty rsn tid now).2.transactions
      = s.transactions ++ [⟨tid, pid, ty, q, now, rsn⟩] ∧
    mapGet? (updateStock s pid q ty rsn tid now).2.products pid
      = some { p with stock := p.stock + txDelta ty q } ∧
    ((updateStock s pid q ty rsn tid now).1.message ≠ successBase ↔
      p.stock + txDelta ty q < p.safetyStock) := by
  have _hq := hq
  rw [updateStock_success s pid q ty rsn tid now p hp hge]
  refine ⟨rfl, rfl, rfl, mapGet?_set_self s.products pid _ p hp, ?_⟩
  by_cases hth : p.stock + txDelta ty q < p.safetyStock
  · rw [if_pos hth]
    exact ⟨fun _ => hth, fun _ => successBase_alert_ne p.safetyStock⟩
  · rw [if_neg hth]
    constructor
    · intro hne
      exact absurd (String.append_empty successBase) hne
    · intro hlt
      exact absurd hlt hth

/-- Witness for C3: the threshold-signalling scenario.  On P001 (stock
1000, safety 200) an outbound of 850 succeeds with quantity 150 and the
below-safety alert; a further outbound of 151 (one more than the remaining
stock) fails with the insufficient-stock message, quantity unchanged. -/
theorem spec_c3_witness :
    (mapGet? initialState.products "P001" = some p001 ∧ (0 : Int) ≤ 850 ∧
      0 ≤ p001.stock + txDelta TxType.outbound 850) ∧
    ((updateStock initialState "P001" 850 TxType.outbound "order" "t1" 1).1.success
        = true ∧
      (updateStock initialState "P001" 850 TxType.outbound "order" "t1" 1).1.currentStock
        = 150 ∧
      (updateStock initialState "P001" 850 TxType.outbound "order" "t1" 1).1.message
        ≠ successBase) ∧
    ((updateStock c3State "P001" 151 TxType.outbound "order" "t2" 2).1.success
        = false ∧
      (updateStock c3State "P001" 151 TxType.outbound "order" "t2" 2).1.currentStock
        = 150 ∧
      (updateStock c3State "P001" 151 TxType.outbound "order" "t2" 2).2 = c3State) := by
  refine ⟨⟨by decide, by decide, by decide⟩, ?_, by decide, by decide, by decide⟩
  have h := spec_c3_success initialState "P001" 850 TxType.outbound "order"
    "t1" 1 p001 (by decide) (by decide) (by decide)
  exact ⟨h.1, by decide, h.2.2.2.2.mpr (by decide)⟩

/-- C10: `updateStock` does not validate the sign of the magnitude: an
inbound movement of magnitude -100 against P001 (stock 1000) is accepted,
decreases the quantity to 900 and logs a transaction with negative
magnitude, and an outbound movement of magnitude -100 is accepted and
increases the quantity to 1100. -/
theorem spec_c10_negative_magnitude :
    ((updateStock initialState "P001" (-100) TxType.inbound "neg" "t1" 1).1.success
        = true ∧
      (updateStock initialState "P001" (-100) TxType.inbound "neg" "t1" 1).1.currentStock
        = 900 ∧
      (updateStock initialState "P001" (-100) TxType.inbound "neg" "t1" 1).2.transactions
        = [⟨"t1", "P001", TxType.inbound, -100, 1, "neg"⟩]) ∧
    ((updateStock initialState "P001" (-100) TxType.outbound "neg" "t2" 2).1.success
        = true ∧
      (updateStock initialState "P001" (-100) TxType.outbound "neg" "t2" 2).1.currentStock
        = 1100) := by
  decide

/-- C4 counterexample: after one accepted outbound movement from the
initial catalog, `validateIntegrity` on P001 reports `isValid = false` and
`difference = 1000` (the initial quantity), not `isValid = true` and
`difference = 0` as claimed: the replay starts from a zero baseline while
the catalog starts from nonzero sample quantities. -/
theorem spec_c4_counterexample :
    (updateStock initialState "P001" 100 TxType.outbound "order" "t1" 1).1.success
      = true ∧
    (validateIntegrity
      (updateStock initialState "P001" 100 TxType.outbound "order" "t1" 1).2
      "P001").isValid = false ∧
    (validateIntegrity
      (updateStock initialState "P001" 100 TxType.outbound "order" "t1" 1).2
      "P001").difference = 1000 := by
  refine ⟨by decide, ?_, by decide⟩
  with_unfolding_all rfl

/-- C4 (amended): after any sequence of `updateStock` calls starting from
the initial catalog, `validateIntegrity` on a catalog item reports
`difference` equal to that item's initial quantity (not 0), and
`isValid = true` exactly when that initial quantity is zero; since every
sample item has positive initial quantity, the verifier reports invalid
even though no drift occurred. -/
theorem spec_c4_replay_difference (reqs : List StockRequest) (pid : String)
    (p0 : Product) (h0 : mapGet? initialProducts pid = some p0) :
    (validateIntegrity (applyRequests initialState reqs) pid).difference
      = p0.stock ∧
    ((validateIntegrity (applyRequests initialState reqs) pid).isValid = true ↔
      p0.stock = 0) := by
  have htrack := tracksInitial_run reqs initialState tracksInitial_init
  cases hp : mapGet? (applyRequests initialState reqs).products pid with
  | none =>
    rw [(htrack pid).2 hp] at h0
    exact Option.noConfusion h0
  | some p =>
    obtain ⟨p0', h0', hstock⟩ := (htrack pid).1 p hp
    have hpp : p0 = p0' := Option.some_inj.mp (h0.symm.trans h0')
    have hdiff : p.stock - replayedStock (applyRequests initialState reqs).transactions pid
        = p0.stock := by
      rw [hpp]
      omega
    constructor
    · rw [validateIntegrity_difference _ _ p hp, hdiff]
    · rw [validateIntegrity_isValid _ _ p hp, hdiff]
      rw [decide_eq_true_iff]
      exact int_abs_lt_hundredth p0.stock

/-- Witness for C4 (amended) after one accepted outbound movement. -/
theorem spec_c4_witness :
    mapGet? initialProducts "P001" = some p001 ∧
    ((validateIntegrity (applyRequests initialState c4Reqs) "P001").difference
        = p001.stock ∧
      ((validateIntegrity (applyRequests initialState c4Reqs) "P001").isValid
          = true ↔ p001.stock = 0)) :=
  ⟨by decide, spec_c4_replay_difference c4Reqs "P001" p001 (by decide)⟩

/-- C5: conservation.  For a catalog item with no adjustment transaction
logged against it, the final quantity after any sequence of `updateStock`
calls from the initial catalog equals the initial quantity plus the sum of
logged (accepted) inbound magnitudes minus the sum of logged (accepted)
outbound magnitudes for that item. -/
theorem spec_c5_conservation (reqs : List StockRequest) (pid : String)
    (p0 : Product) (h0 : mapGet? initialProducts pid = some p0)
    (hadj : ∀ t ∈ (applyRequests initialState reqs).transactions,
      t.productId = pid → t.type ≠ TxType.adjustment) :
    ∃ p, mapGet? (applyRequests initialState reqs).products pid = some p ∧
      p.stock = p0.stock +
        kindTotal TxType.inbound (applyRequests initialState reqs).transactions pid
        - kindTotal TxType.outbound (applyRequests initialState reqs).transactions pid := by
  have htrack := tracksInitial_run reqs initialState tracksInitial_init
  cases hp : mapGet? (applyRequests initialState reqs).products pid with
  | none =>
    rw [(htrack pid).2 hp] at h0
    exact Option.noConfusion h0
  | some p =>
    obtain ⟨p0', h0', hstock⟩ := (htrack pid).1 p hp
    have hpp : p0 = p0' := Option.some_inj.mp (h0.symm.trans h0')
    refine ⟨p, rfl, ?_⟩
    rw [replayedStock_decomp, kindTotal_adjustment_zero _ _ hadj] at hstock
    rw [hpp]
    omega

/-- Witness for C5 at a concrete adjustment-free sequence (one rejected
and two accepted movements against P002). -/
theorem spec_c5_witness :
    mapGet? initialProducts "P002" = some p002 ∧
    (∀ t ∈ (applyRequests initialState c1Reqs).transactions,
      t.productId = "P002" → t.type ≠ TxType.adjustment) ∧
    (∃ p, mapGet? (applyRequests initialState c1Reqs).products "P002" = some p ∧
      p.stock = p002.stock +
        kindTotal TxType.inbound (applyRequests initialState c1Reqs).transactions "P002"
        - kindTotal TxType.outbound (applyRequests initialState c1Reqs).transactions "P002") :=
  ⟨by decide, by decide,
    spec_c5_conservation c1Reqs "P002" p002 (by decide) (by decide)⟩

/-- C8: concurrent `updateStock` calls modelled as an arbitrary
interleaving (arbitrary ordering) of atomic calls, matching the JS runtime
in which each synchronous `updateStock` body runs to completion.  Given an
item with quantity 100 and any ordering of 50 outbound requests of
magnitude 5, the number of successes times 5 is at most 100, the final
quantity is `100 - successes * 5`, and successes plus failures is 50. -/
theorem spec_c8_linearizable (s : SCMState) (pid : String) (p : Product)
    (reqs : List StockRequest) (hp : mapGet? s.products pid = some p)
    (hstock : p.stock = 100) (hlen : reqs.length = 50)
    (hbatch : outboundBatch pid 5 reqs) :
    ((runRequests s reqs).2.1 : Int) * 5 ≤ 100 ∧
    (∃ p', mapGet? (runRequests s reqs).1.products pid = some p' ∧
      p'.stock = 100 - ((runRequests s reqs).2.1 : Int) * 5) ∧
    (runRequests s reqs).2.1 + (runRequests s reqs).2.2 = 50 := by
  obtain ⟨p', hp', hstock', hnn', hcount⟩ :=
    runRequests_outbound pid 5 reqs s p hp (by omega) hbatch
  refine ⟨by omega, ⟨p', hp', by omega⟩, by omega⟩

/-- Witness for C8: a catalog with a quantity-100 item and fifty identical
outbound-5 requests. -/
theorem spec_c8_witness :
    (mapGet? c8State.products "A" = some c8Product ∧ c8Product.stock = 100 ∧
      c8Reqs.length = 50 ∧ outboundBatch "A" 5 c8Reqs) ∧
    (((runRequests c8State c8Reqs).2.1 : Int) * 5 ≤ 100 ∧
      (∃ p', mapGet? (runRequests c8State c8Reqs).1.products "A" = some p' ∧
        p'.stock = 100 - ((runRequests c8State c8Reqs).2.1 : Int) * 5) ∧
      (runRequests c8State c8Reqs).2.1 + (runRequests c8State c8Reqs).2.2 = 50) := by
  have hbatch : outboundBatch "A" 5 c8Reqs := by
    have h : ∀ r ∈ c8Reqs, r.productId = "A" ∧ r.quantity = 5 ∧
        r.type = TxType.outbound := by decide
    exact h
  exact ⟨⟨by decide, by decide, by decide, hbatch⟩,
    spec_c8_linearizable c8State "A" c8Product c8Reqs (by decide) (by decide)
      (by decide) hbatch⟩

/-- C6: for an existing item, `forecastDemand` returns 0 when the item has
no outbound history, and otherwise returns the ceiling of the average
magnitude of the at most 10 most recent outbound movements times the
horizon in days times the 1.2 buffer factor. -/
theorem spec_c6_forecast (s : SCMState) (pid : String) (days : Int)
    (p : Product) (hp : mapGet? s.products pid = some p) :
    (outboundTxs s pid = [] → forecastDemand s pid days = 0) ∧
    (outboundTxs s pid ≠ [] →
      forecastDemand s pid days =
        Int.ceil ((((recentOutbound s pid).map (fun t => t.quantity)).sum : ℚ)
          / ((recentOutbound s pid).length : ℚ) * (days : ℚ) * (6 / 5 : ℚ))) := by
  constructor
  · intro hnil
    have hrec : recentOutbound s pid = [] := by
      rw [recentOutbound, hnil]
      rfl
    simp [forecastDemand, hp, hrec]
  · intro hne
    have hlen : (recentOutbound s pid).length ≠ 0 := by
      rw [recentOutbound, List.length_drop]
      have h1 : 0 < (outboundTxs s pid).length := List.length_pos.mpr hne
      omega
    simp [forecastDemand, hp, hlen]

/-- Witness for C6: ten outbound movements of magnitude 10 and a 30-day
horizon give forecast ceil(10 * 30 * 1.2) = 360. -/
theorem spec_c6_witness :
    mapGet? forecastState.products "P001" = some p001 ∧
    outboundTxs forecastState "P001" ≠ [] ∧
    forecastDemand forecastState "P001" 30 =
      Int.ceil ((((recentOutbound forecastState "P001").map
          (fun t => t.quantity)).sum : ℚ)
        / ((recentOutbound forecastState "P001").length : ℚ)
        * ((30 : Int) : ℚ) * (6 / 5 : ℚ)) ∧
    forecastDemand forecastState "P001" 30 = 360 := by
  refine ⟨by decide, by decide, ?_, ?_⟩
  · exact (spec_c6_forecast forecastState "P001" 30 p001 (by decide)).2
      (by decide)
  · with_unfolding_all rfl

/-- C7: for an existing item, `getOrderRecommendation` computes the
required stock as `forecastDemand(itemKey, leadTimeDays) + safetyStock`;
when the quantity is below it the recommendation is to order exactly the
difference, otherwise not to order (quantity 0).  The result is a pure
function of the state. -/
theorem spec_c7_reorder (s : SCMState) (pid : String) (p : Product)
    (hp : mapGet? s.products pid = some p) :
    (p.stock < forecastDemand s pid p.leadTimeDays + p.safetyStock →
      (getOrderRecommendation s pid).shouldOrder = true ∧
      (getOrderRecommendation s pid).recommendedQuantity =
        forecastDemand s pid p.leadTimeDays + p.safetyStock - p.stock) ∧
    (¬ p.stock < forecastDemand s pid p.leadTimeDays + p.safetyStock →
      (getOrderRecommendation s pid).shouldOrder = false ∧
      (getOrderRecommendation s pid).recommendedQuantity = 0) := by
  constructor
  · intro hlt
    simp [getOrderRecommendation, hp, hlt]
  · intro hge
    simp [getOrderRecommendation, hp, hge]

/-- Witness for C7: after the P003 quantity drops to 10 (safety 20, no
outbound history so forecast 0), the recommendation is to order exactly
10. -/
theorem spec_c7_witness :
    mapGet? c7State.products "P003" = some { p003 with stock := 10 } ∧
    ({ p003 with stock := 10 } : Product).stock <
      forecastDemand c7State "P003"
        ({ p003 with stock := 10 } : Product).leadTimeDays
        + ({ p003 with stock := 10 } : Product).safetyStock ∧
    (getOrderRecommendation c7State "P003").shouldOrder = true ∧
    (getOrderRecommendation c7State "P003").recommendedQuantity = 10 := by
  have h := (spec_c7_reorder c7State "P003" { p003 with stock := 10 }
    (by decide)).1 (by decide)
  refine ⟨by decide, by decide, h.1, ?_⟩
  rw [h.2]
  decide

/-- C9: `parseResponse` is a total function of the response text, and each
missing section defaults to an empty or neutral value: no typescript code
block gives empty code, no edge-case header gives an empty edge-case list,
and no successful coverage match gives the default coverage 80. -/
theorem spec_c9_parse_defaults (response : String) :
    (findSub tsOpen.data response.data = none →
      (parseResponse response).code = "") ∧
    (findSub edgeHeader.data response.data = none →
      (parseResponse response).edgeCases = []) ∧
    (findCoverage response.data = none →
      (parseResponse response).estimatedCoverage = 80) := by
  refine ⟨?_, ?_, ?_⟩
  · intro h
    have h1 : (parseResponse response).code
        = String.mk (codeField response.data) := rfl
    rw [h1, codeField, h]
  · intro h
    have h1 : edgeSectionText response.data = [] := by
      rw [edgeSectionText, h]
    have h2 : (parseResponse response).edgeCases
        = edgeCasesField response.data := rfl
    rw [h2, edgeCasesField, h1]
    rfl
  · intro h
    have h1 : (parseResponse response).estimatedCoverage =
        match findCoverage response.data with
        | some v => (v : Int)
        | none => 80 := rfl
    rw [h1, h]

/-- Witness for C9 at a response containing none of the sections. -/
theorem spec_c9_witness :
    (findSub tsOpen.data ("hello world").data = none ∧
      findSub edgeHeader.data ("hello world").data = none ∧
      findCoverage ("hello world").data = none) ∧
    ((parseResponse "hello world").code = "" ∧
      (parseResponse "hello world").edgeCases = [] ∧
      (parseResponse "hello world").estimatedCoverage = 80) :=
  ⟨⟨by decide, by decide, by decide⟩,
    (spec_c9_parse_defaults "hello world").1 (by decide),
    (spec_c9_parse_defaults "hello world").2.1 (by decide),
    (spec_c9_parse_defaults "hello world").2.2 (by decide)⟩
